import Mathlib

/-!
# Sensor firmware (`esp/main`): debouncer, mode state machine, decode, report

Shallow embedding of `main.c`, `shtc3.c` and `potentiometer.c`.

* `uint8_t` / `uint16_t` values are naturals reduced with an explicit `% 2^w`.
* `int` / `int32_t` values are integers wrapped into `[-2^31, 2^31)`.
* The button sample of one loop iteration is a `Bool`: `true` stands for
  `gpio_get_level(9) == 0` (the pin is pulled up, so a pressed button reads 0).
-/

namespace SensorFirmware

/-! ## Machine integers -/

/-- Conversion to `uint8_t`. -/
def u8 (n : Nat) : Nat := n % 256

/-- Conversion to `uint16_t`. -/
def u16 (n : Nat) : Nat := n % 65536

/-! ## `main.c`: debouncer and display mode -/

/-- The two variables the debouncer block of `app_main` reads and writes:
the local `uint8_t btnRightActive` and the file-level `static uint8_t s_state`. -/
structure LoopState where
  btnRightActive : Nat
  s_state : Nat
deriving DecidableEq, Repr

/-- Values at loop entry: `uint8_t btnRightActive = 0;` and `static uint8_t s_state = 1;`. -/
def initState : LoopState := { btnRightActive := 0, s_state := 1 }

/-- Lines 37-44 of `main.c`:
`if (s_state < 2) { s_state += 1; } else { s_state = 0; }`. -/
def advanceMode (s_state : Nat) : Nat :=
  if s_state < 2 then u8 (s_state + 1) else 0

/-- The test `++btnRightActive == 2` of line 35 for a pressed sample: the
pre-increment stores the sum back into the `uint8_t` and yields the stored value. -/
def advanceFires (st : LoopState) (pressed : Bool) : Bool :=
  pressed && (u8 (st.btnRightActive + 1) == 2)

/-- Lines 33-50 of `main.c`, one pass through the debouncer block. -/
def debounceStep (st : LoopState) (pressed : Bool) : LoopState :=
  if pressed then
    let c := u8 (st.btnRightActive + 1)
    if c = 2 then
      { btnRightActive := c, s_state := advanceMode st.s_state }
    else
      { btnRightActive := c, s_state := st.s_state }
  else
    { btnRightActive := 0, s_state := st.s_state }

/-- The debouncer block run over a finite sequence of samples, one per loop iteration. -/
def debounceRun (st : LoopState) : List Bool → LoopState
  | [] => st
  | p :: ps => debounceRun (debounceStep st p) ps

/-- For each sample of the sequence, whether the mode-advance statement ran on it. -/
def advanceFlags (st : LoopState) : List Bool → List Bool
  | [] => []
  | p :: ps => advanceFires st p :: advanceFlags (debounceStep st p) ps

/-- Number of mode advances performed while processing the samples. -/
def advanceCount (st : LoopState) (samples : List Bool) : Nat :=
  (advanceFlags st samples).count true

/-! ### Run structure of a sample sequence (the property side of the debounce claim) -/

/-- Marks every sample that is the second sample of a maximal run of pressed samples.
`run` is the number of consecutive pressed samples immediately before the current one. -/
def secondOfRunFrom (run : Nat) : List Bool → List Bool
  | [] => []
  | true :: ps => decide (run = 1) :: secondOfRunFrom (run + 1) ps
  | false :: ps => false :: secondOfRunFrom 0 ps

/-- Marks the second sample of every maximal run of pressed samples. -/
def secondOfRun (samples : List Bool) : List Bool := secondOfRunFrom 0 samples

/-- Lengths of the maximal runs of pressed samples, in order; `run` is the length of the
run that is open at the start. -/
def runLengthsFrom (run : Nat) : List Bool → List Nat
  | [] => if run = 0 then [] else [run]
  | true :: ps => runLengthsFrom (run + 1) ps
  | false :: ps => if run = 0 then runLengthsFrom 0 ps else run :: runLengthsFrom 0 ps

/-- Lengths of the maximal runs of consecutive pressed samples. -/
def runLengths (samples : List Bool) : List Nat := runLengthsFrom 0 samples

/-- Number of maximal runs of consecutive pressed samples of length at least 2. -/
def longRuns (samples : List Bool) : Nat :=
  ((runLengths samples).filter (fun n => decide (2 ≤ n))).length

/-! ## `potentiometer.c`: resistance derivation -/

/-- Two's-complement reduction of an integer to the 32-bit signed range. -/
def wrapI32 (x : Int) : Int := (x + 2147483648) % 4294967296 - 2147483648

/-- Line 30 of `potentiometer.c`, `int32_t resist_ohm = (voltage_mV * 10000) / 2500;`,
as a function of the calibrated voltage written by `adc_cali_raw_to_voltage`.
`voltage_mV` is an `int` (32 bits on the target), so the product is formed in 32 bits;
C leaves signed overflow undefined, and the model takes the two's-complement result of
the target's multiply instruction. `/` on `int` truncates toward zero (`Int.tdiv`). -/
def potentiometer_get_resistance (voltage_mV : Int) : Int :=
  wrapI32 (Int.tdiv (wrapI32 (voltage_mV * 10000)) 2500)

/-! ## Single-precision arithmetic -/

/-- Nearest integer, ties to the even neighbour. -/
def roundHalfEven (x : ℚ) : Int :=
  if x - ⌊x⌋ < 1 / 2 then ⌊x⌋
  else if 1 / 2 < x - ⌊x⌋ then ⌊x⌋ + 1
  else if ⌊x⌋ % 2 = 0 then ⌊x⌋ else ⌊x⌋ + 1

/-- Binary exponent used to round `x` to IEEE binary32: `⌊log₂ |x|⌋`, not below the
exponent -126 of the subnormal range. -/
def f32Exp (x : ℚ) : Int := max (Int.log 2 |x|) (-126)

/-- Rounding of a rational to the nearest IEEE binary32 value (24-bit significand, round
to nearest, ties to even), given as the exact rational value of that `float`. Results
beyond the largest finite `float` do not occur in this program and are not modelled. -/
def f32Round (x : ℚ) : ℚ :=
  (roundHalfEven (x / (2 : ℚ) ^ (f32Exp x - 23)) : ℚ) * (2 : ℚ) ^ (f32Exp x - 23)

/-! ## `shtc3.c`: sensor acquisition -/

/-- Value of `SHTC3_ADDR` in `headers/shtc3.h`. -/
def SHTC3_ADDR : Nat := 0x70

/-- One externally visible action of the acquisition: a blocking I2C write or read on
`I2C_MASTER_NUM` with its device address and its timeout (the argument of
`pdMS_TO_TICKS`, in ms), or a `vTaskDelay` with its duration in ms. -/
inductive BusEvent where
  | write (addr : Nat) (bytes : List Nat) (timeoutMs : Nat)
  | read (addr : Nat) (len : Nat) (timeoutMs : Nat)
  | delay (ms : Nat)
deriving DecidableEq, Repr

/-- Outcome of one I2C transaction as seen by the driver call: `ok data` is `ESP_OK`
(`data` being the bytes the device sends when the transaction is a read), `fail` is any
other `esp_err_t`. -/
inductive I2cReply where
  | ok (data : List Nat)
  | fail
deriving DecidableEq, Repr

/-- The bus as the code sees it: the outcomes of the transactions still to come, in
order (a transaction with no outcome left times out), and the actions performed so far,
oldest first. -/
structure Bus where
  replies : List I2cReply
  trace : List BusEvent
deriving DecidableEq, Repr

/-- The driver call `i2c_master_write_to_device(I2C_MASTER_NUM, addr, buf, len, timeout)`:
returns whether the result is `ESP_OK`. -/
def i2c_master_write_to_device (bus : Bus) (addr : Nat) (buf : List Nat) (timeoutMs : Nat) :
    Bus × Bool :=
  let tr := bus.trace ++ [BusEvent.write addr buf timeoutMs]
  match bus.replies with
  | I2cReply.ok _ :: rest => ({ replies := rest, trace := tr }, true)
  | I2cReply.fail :: rest => ({ replies := rest, trace := tr }, false)
  | [] => ({ replies := [], trace := tr }, false)

/-- The driver call `i2c_master_read_from_device(I2C_MASTER_NUM, addr, data, len, timeout)`
on a zero-initialised buffer: returns whether the result is `ESP_OK` and the buffer. -/
def i2c_master_read_from_device (bus : Bus) (addr : Nat) (len : Nat) (timeoutMs : Nat) :
    Bus × Bool × List Nat :=
  let tr := bus.trace ++ [BusEvent.read addr len timeoutMs]
  match bus.replies with
  | I2cReply.ok data :: rest =>
    ({ replies := rest, trace := tr }, true, ((data.map u8) ++ List.replicate len 0).take len)
  | I2cReply.fail :: rest => ({ replies := rest, trace := tr }, false, List.replicate len 0)
  | [] => ({ replies := [], trace := tr }, false, List.replicate len 0)

/-- The call `vTaskDelay(pdMS_TO_TICKS(ms))`. -/
def vTaskDelay (bus : Bus) (ms : Nat) : Bus :=
  { bus with trace := bus.trace ++ [BusEvent.delay ms] }

/-- Modelled from the spec: the macro `ESP_ERROR_CHECK` comes from the platform headers,
which are not among the sources. By sections 4.1 and 7 of the specification a failed bus
transaction is fatal and aborts the process: the check lets `ESP_OK` pass (`some ()`) and
aborts on any other result (`none`). -/
def ESP_ERROR_CHECK (ok : Bool) : Option Unit :=
  if ok then some () else none

/-- `shtc3_writeRegister`: `uint8_t buf[2] = {cmd >> 8, cmd & 0xFF};` written with a 50 ms
timeout under `ESP_ERROR_CHECK`. The result is `none` when the check aborts the process. -/
def shtc3_writeRegister (cmd : Nat) (bus : Bus) : Bus × Option Unit :=
  let buf := [u8 (cmd >>> 8), u8 (cmd &&& 0xFF)]
  let r := i2c_master_write_to_device bus SHTC3_ADDR buf 50
  (r.1, ESP_ERROR_CHECK r.2)

/-- Line 28 of `shtc3.c`: `uint16_t rawT = (data[0] << 8) | data[1];`. -/
def rawTemperature (data : List Nat) : Nat :=
  u16 ((data.getD 0 0 <<< 8) ||| data.getD 1 0)

/-- Line 29 of `shtc3.c`: `uint16_t rawRH = (data[3] << 8) | data[4];`. -/
def rawHumidity (data : List Nat) : Nat :=
  u16 ((data.getD 3 0 <<< 8) ||| data.getD 4 0)

/-- Line 31 of `shtc3.c`: `-45 + 175 * ((float)rawT / 65535.0f)`. `rnd` is the rounding
applied to the result of each floating-point operation and of the conversion
`(float)rawT`: `f32Round` for the `float` arithmetic of the code, `id` for exact rational
arithmetic. The constants -45, 175 and 65535 are exact in binary32. -/
def decodeTemperature (rnd : ℚ → ℚ) (rawT : Nat) : ℚ :=
  rnd (-45 + rnd (175 * rnd (rnd (rawT : ℚ) / 65535)))

/-- Line 32 of `shtc3.c`: `100 * ((float)rawRH / 65535.0f)`, with `rnd` as in
`decodeTemperature`. -/
def decodeHumidity (rnd : ℚ → ℚ) (rawRH : Nat) : ℚ :=
  rnd (100 * rnd (rnd (rawRH : ℚ) / 65535))

/-- Lines 28-32 of `shtc3.c`: the (temperature, humidity) pair decoded from the buffer. -/
def shtc3_decode (rnd : ℚ → ℚ) (data : List Nat) : ℚ × ℚ :=
  (decodeTemperature rnd (rawTemperature data), decodeHumidity rnd (rawHumidity data))

/-- `shtc3_readRegister`: read 6 bytes with a 100 ms timeout under `ESP_ERROR_CHECK`, then
decode in `float` arithmetic. -/
def shtc3_readRegister (bus : Bus) : Bus × Option (ℚ × ℚ) :=
  let r := i2c_master_read_from_device bus SHTC3_ADDR 6 100
  match ESP_ERROR_CHECK r.2.1 with
  | none => (r.1, none)
  | some _ => (r.1, some (shtc3_decode f32Round r.2.2))

/-- `shtc3_getValues`: wake, wait 15 ms, measure, wait 20 ms, read, wait 10 ms, sleep.
A failed transaction aborts the process at that point (`none`). -/
def shtc3_getValues (bus : Bus) : Bus × Option (ℚ × ℚ) :=
  match shtc3_writeRegister 0x3517 bus with
  | (b1, none) => (b1, none)
  | (b1, some _) =>
    match shtc3_writeRegister 0x7CA2 (vTaskDelay b1 15) with
    | (b2, none) => (b2, none)
    | (b2, some _) =>
      match shtc3_readRegister (vTaskDelay b2 20) with
      | (b3, none) => (b3, none)
      | (b3, some reading) =>
        match shtc3_writeRegister 0xB098 (vTaskDelay b3 10) with
        | (b4, none) => (b4, none)
        | (b4, some _) => (b4, some reading)

/-- The acquisition sequence of the specification, as a list of actions. -/
def acquisitionSequence : List BusEvent :=
  [ BusEvent.write 0x70 [0x35, 0x17] 50, BusEvent.delay 15,
    BusEvent.write 0x70 [0x7C, 0xA2] 50, BusEvent.delay 20,
    BusEvent.read 0x70 6 100, BusEvent.delay 10,
    BusEvent.write 0x70 [0xB0, 0x98] 50 ]

/-- Number of bus transactions that succeed before the first one that fails: the length
of the leading run of `ESP_OK` outcomes (a transaction with no outcome left fails). -/
def leadingOk : List I2cReply → Nat
  | I2cReply.ok _ :: rest => leadingOk rest + 1
  | _ => 0

/-! ## `main.c`: report line -/

/-- Decimal digits of a natural number, most significant first (no leading zeros). -/
def decimalDigits (n : Nat) : List Char := Nat.toDigits 10 n

/-- The conversion `%.2f` of `printf` applied to the exact value of a `float`: optional
minus sign, integer part, a point and two decimals, correctly rounded (ties to even). -/
def formatFixed2 (x : ℚ) : List Char :=
  let h := (roundHalfEven (|x| * 100)).toNat
  (if x < 0 then ['-'] else []) ++ decimalDigits (h / 100) ++
    ['.', Nat.digitChar (h / 10 % 10), Nat.digitChar (h % 10)]

/-- The conversion `%ld` of `printf`: a signed decimal integer. -/
def formatLong (i : Int) : List Char :=
  (if i < 0 then ['-'] else []) ++ decimalDigits i.natAbs

/-- An argument passed to `printf` after the format. -/
inductive PrintfArg where
  | double (x : ℚ)
  | long (i : Int)

/-- The conversions of `printf` that occur in `main.c`: `%%`, `%.2f` and `%ld`; any other
character of the format is copied. `fuel` bounds the number of format characters read. -/
def printfAux : Nat → List Char → List PrintfArg → List Char
  | 0, _, _ => []
  | _ + 1, [], _ => []
  | fuel + 1, c :: rest, args =>
    if c = '%' then
      match rest, args with
      | '%' :: rest1, _ => '%' :: printfAux fuel rest1 args
      | '.' :: '2' :: 'f' :: rest1, PrintfArg.double x :: args1 =>
        formatFixed2 x ++ printfAux fuel rest1 args1
      | 'l' :: 'd' :: rest1, PrintfArg.long i :: args1 =>
        formatLong i ++ printfAux fuel rest1 args1
      | _, _ => c :: printfAux fuel rest args
    else c :: printfAux fuel rest args

/-- Text written by `printf(format, args...)`. -/
def printf (format : String) (args : List PrintfArg) : String :=
  String.mk (printfAux format.length format.toList args)

/-- Lines 55-66 of `main.c`: the line printed for the mode `s_state`, the decoded
`temp` and `hum` (exact values of the two `float`s) and the `int32_t resistance`. -/
def report (s_state : Nat) (temp hum : ℚ) (resistance : Int) : String :=
  if s_state = 0 then
    printf "\x7b\"payload\":[\x7b\"displayName\":\"Temperature\",\"displayUnit\":\"°C\",\"data\":%.2f\x7d]\x7d\n"
      [PrintfArg.double temp]
  else if s_state = 1 then
    printf "\x7b\"payload\":[\x7b\"displayName\":\"Temperature\",\"displayUnit\":\"°C\",\"data\":%.2f\x7d,\x7b\"displayName\":\"Humidity\",\"displayUnit\":\"%%\",\"data\":%.2f\x7d]\x7d\n"
      [PrintfArg.double temp, PrintfArg.double hum]
  else
    printf "\x7b\"payload\":[\x7b\"displayName\":\"Temperature\",\"displayUnit\":\"°C\",\"data\":%.2f\x7d,\x7b\"displayName\":\"Humidity\",\"displayUnit\":\"%%\",\"data\":%.2f\x7d,\x7b\"displayName\":\"Resistance\",\"displayUnit\": \"Ohm\",\"data\":%ld\x7d]\x7d\n"
      [PrintfArg.double temp, PrintfArg.double hum, PrintfArg.long resistance]

/-! ### The report schema of the specification (property side) -/

/-- The Temperature entry of the schema. -/
def temperatureEntry (temp : ℚ) : String :=
  "\x7b\"displayName\":\"Temperature\",\"displayUnit\":\"°C\",\"data\":" ++
    String.mk (formatFixed2 temp) ++ "\x7d"

/-- The Humidity entry of the schema. -/
def humidityEntry (hum : ℚ) : String :=
  "\x7b\"displayName\":\"Humidity\",\"displayUnit\":\"%\",\"data\":" ++
    String.mk (formatFixed2 hum) ++ "\x7d"

/-- The Resistance entry of the schema. -/
def resistanceEntry (resistance : Int) : String :=
  "\x7b\"displayName\":\"Resistance\",\"displayUnit\": \"Ohm\",\"data\":" ++
    String.mk (formatLong resistance) ++ "\x7d"

/-- A report line of the schema: the entries separated by commas inside
`{"payload":[` ... `]}` and a newline. -/
def payloadLine (entries : List String) : String :=
  "\x7b\"payload\":[" ++ ",".intercalate entries ++ "]\x7d\n"

/-! ## `main.c`: one iteration of the loop -/

/-- What one iteration reads from outside besides the bus: the button sample and the
calibrated voltage delivered by `adc_cali_raw_to_voltage`. -/
structure IterationInput where
  pressed : Bool
  voltage_mV : Int

/-- Lines 33-68 of `main.c`: debounce, acquire, derive the resistance, print, wait 55 ms.
The result is `none` when `ESP_ERROR_CHECK` aborts the process during the acquisition;
otherwise it is the new state and the printed line. -/
def loopIteration (st : LoopState) (inp : IterationInput) (bus : Bus) :
    Bus × Option (LoopState × String) :=
  let st1 := debounceStep st inp.pressed
  match shtc3_getValues bus with
  | (b1, none) => (b1, none)
  | (b1, some reading) =>
    let resistance := potentiometer_get_resistance inp.voltage_mV
    let line := report st1.s_state reading.1 reading.2 resistance
    (vTaskDelay b1 55, some (st1, line))

/-! ## Debouncer: supporting lemmas -/

theorem u8_succ_eq_two_iff (c : Nat) : u8 (c + 1) = 2 ↔ c % 256 = 1 := by
  unfold u8
  omega

theorem advanceMode_lt_three (m : Nat) : advanceMode m < 3 := by
  unfold advanceMode u8
  split <;> omega

theorem advanceMode_ne_self (m : Nat) : advanceMode m ≠ m := by
  unfold advanceMode u8
  split <;> omega

theorem debounceStep_s_state (st : LoopState) (pressed : Bool) :
    (debounceStep st pressed).s_state =
      if advanceFires st pressed = true then advanceMode st.s_state else st.s_state := by
  cases pressed with
  | false => simp [debounceStep, advanceFires]
  | true =>
    by_cases h : u8 (st.btnRightActive + 1) = 2
    · simp [debounceStep, advanceFires, h]
    · simp [debounceStep, advanceFires, h]

theorem debounceStep_counter (st : LoopState) (pressed : Bool) :
    (debounceStep st pressed).btnRightActive =
      if pressed = true then u8 (st.btnRightActive + 1) else 0 := by
  cases pressed with
  | false => simp [debounceStep]
  | true =>
    by_cases h : u8 (st.btnRightActive + 1) = 2
    · simp [debounceStep, h]
    · simp [debounceStep, h]

theorem debounceStep_mode_lt_three (st : LoopState) (pressed : Bool) (h : st.s_state < 3) :
    (debounceStep st pressed).s_state < 3 := by
  rw [debounceStep_s_state]
  split
  · exact advanceMode_lt_three _
  · exact h

theorem debounceRun_mode_lt_three (samples : List Bool) :
    ∀ st : LoopState, st.s_state < 3 → (debounceRun st samples).s_state < 3 := by
  induction samples with
  | nil => intro st h; simpa [debounceRun] using h
  | cons p ps ih =>
    intro st h
    simp only [debounceRun]
    exact ih _ (debounceStep_mode_lt_three st p h)

/-- An open run of positive length shows up in the run lengths with at least that length. -/
theorem exists_run_ge (samples : List Bool) :
    ∀ run : Nat, 0 < run → ∃ n ∈ runLengthsFrom run samples, run ≤ n := by
  induction samples with
  | nil =>
    intro run h
    have h0 : run ≠ 0 := by omega
    exact ⟨run, by simp [runLengthsFrom, h0], le_refl _⟩
  | cons p ps ih =>
    intro run h
    cases p with
    | true =>
      obtain ⟨n, hn, hle⟩ := ih (run + 1) (by omega)
      exact ⟨n, by simpa [runLengthsFrom] using hn, by omega⟩
    | false =>
      have h0 : run ≠ 0 := by omega
      exact ⟨run, by simp [runLengthsFrom, h0], le_refl _⟩

/-- While no run of pressed samples is longer than 257, the code fires on exactly the
second sample of each run. `run` is the length of the run open at the start; the
8-bit counter holds that length modulo 256. -/
theorem advanceFlags_eq_secondOfRunFrom (samples : List Bool) :
    ∀ (run : Nat) (st : LoopState), st.btnRightActive = run % 256 →
      (∀ n ∈ runLengthsFrom run samples, n ≤ 257) →
      advanceFlags st samples = secondOfRunFrom run samples := by
  induction samples with
  | nil => intro run st _ _; rfl
  | cons p ps ih =>
    intro run st hc hb
    cases p with
    | true =>
      simp only [runLengthsFrom] at hb
      obtain ⟨n, hn, hle⟩ := exists_run_ge ps (run + 1) (by omega)
      have hrun : run ≤ 256 := by
        have := hb n hn
        omega
      have hstep : (debounceStep st true).btnRightActive = (run + 1) % 256 := by
        rw [debounceStep_counter, hc]
        simp only [if_true, u8]
        omega
      simp only [advanceFlags, secondOfRunFrom]
      have hfire : advanceFires st true = decide (run = 1) := by
        simp only [advanceFires, Bool.true_and, hc]
        by_cases h1 : run = 1
        · subst h1; decide
        · have : ¬ u8 (run % 256 + 1) = 2 := by
            rw [u8_succ_eq_two_iff]; omega
          simp [h1, this]
      rw [hfire]
      congr 1
      exact ih (run + 1) _ hstep hb
    | false =>
      simp only [advanceFlags, secondOfRunFrom]
      have hfire : advanceFires st false = false := by simp [advanceFires]
      rw [hfire]
      congr 1
      refine ih 0 _ (by simp [debounceStep]) ?_
      intro n hn
      apply hb
      simp only [runLengthsFrom]
      split
      · exact hn
      · exact List.mem_cons_of_mem _ hn

/-- The marks of `secondOfRunFrom` count the runs of length at least 2; a run that is
already 2 or longer at the start was marked before the start. -/
theorem count_secondOfRunFrom (samples : List Bool) :
    ∀ run : Nat,
      (secondOfRunFrom run samples).count true + (if 2 ≤ run then 1 else 0) =
        ((runLengthsFrom run samples).filter (fun n => decide (2 ≤ n))).length := by
  induction samples with
  | nil =>
    intro run
    by_cases h0 : run = 0
    · subst h0; simp [secondOfRunFrom, runLengthsFrom]
    · by_cases h2 : 2 ≤ run
      · simp [secondOfRunFrom, runLengthsFrom, h0, h2]
      · simp [secondOfRunFrom, runLengthsFrom, h0, h2]
  | cons p ps ih =>
    intro run
    cases p with
    | true =>
      have := ih (run + 1)
      simp only [secondOfRunFrom, runLengthsFrom]
      rw [← this]
      by_cases h1 : run = 1
      · subst h1; simp
      · by_cases h2 : 2 ≤ run
        · have h3 : 2 ≤ run + 1 := by omega
          simp [h1, h2, h3]
        · have h3 : ¬ 2 ≤ run + 1 := by omega
          simp [h1, h2, h3]
    | false =>
      have := ih 0
      simp only [secondOfRunFrom, runLengthsFrom]
      by_cases h0 : run = 0
      · subst h0
        simpa using this
      · by_cases h2 : 2 ≤ run
        · simp [h0, h2, List.filter_cons] at this ⊢
          omega
        · simp [h0, h2, List.filter_cons] at this ⊢
          omega

/-- Positive half of the debounce property: on every sample sequence whose runs of
pressed samples are at most 257 long, the code advances the mode on exactly the second
sample of each run, and the number of advances is the number of runs of length ≥ 2. -/
theorem debounce_once_per_run_of_short_runs (samples : List Bool)
    (h : ∀ n ∈ runLengths samples, n ≤ 257) :
    advanceFlags initState samples = secondOfRun samples ∧
    advanceCount initState samples = longRuns samples := by
  have hflags : advanceFlags initState samples = secondOfRun samples :=
    advanceFlags_eq_secondOfRunFrom samples 0 initState (by decide) h
  refine ⟨hflags, ?_⟩
  have hc := count_secondOfRunFrom samples 0
  simp only [advanceCount, longRuns, runLengths, hflags, secondOfRun]
  simpa using hc

/-- One debouncer step from a state whose counter is below 255 and whose mode is a valid
display mode: a released sample clears the counter and keeps the mode; a pressed sample
increments the counter and advances the mode exactly when the new counter is 2, which
is exactly when the old counter was 1. -/
theorem debounceStep_spec_below_255 (st : LoopState) (pressed : Bool)
    (hc : st.btnRightActive < 255) (_hm : st.s_state < 3) :
    (pressed = false →
      (debounceStep st pressed).btnRightActive = 0 ∧
      (debounceStep st pressed).s_state = st.s_state) ∧
    (pressed = true →
      (debounceStep st pressed).btnRightActive = st.btnRightActive + 1 ∧
      ((debounceStep st pressed).btnRightActive = 2 ↔ st.btnRightActive = 1) ∧
      ((debounceStep st pressed).btnRightActive = 2 →
        (debounceStep st pressed).s_state = advanceMode st.s_state ∧
        (debounceStep st pressed).s_state ≠ st.s_state) ∧
      ((debounceStep st pressed).btnRightActive ≠ 2 →
        (debounceStep st pressed).s_state = st.s_state)) := by
  have hu : u8 (st.btnRightActive + 1) = st.btnRightActive + 1 := by
    unfold u8; omega
  refine ⟨?_, ?_⟩
  · intro hp
    subst hp
    simp [debounceStep]
  · intro hp
    subst hp
    have hcnt : (debounceStep st true).btnRightActive = st.btnRightActive + 1 := by
      rw [debounceStep_counter]; simp [hu]
    have hmode := debounceStep_s_state st true
    simp only [advanceFires, Bool.true_and, hu, beq_iff_eq] at hmode
    refine ⟨hcnt, ?_, ?_, ?_⟩
    · rw [hcnt]; omega
    · intro h2
      rw [hcnt] at h2
      rw [hmode, if_pos h2]
      exact ⟨rfl, advanceMode_ne_self _⟩
    · intro h2
      rw [hcnt] at h2
      rw [hmode, if_neg h2]

/-! ## Debouncer and mode: main results -/

/-- C1 (evaluation of the code at a long held press): the counter `btnRightActive` is a
`uint8_t`, so during one uninterrupted press of 258 samples it runs 1, 2, ..., 255, 0, 1, 2
and the test `++btnRightActive == 2` succeeds twice, on the 2nd and on the 258th sample.
The sequence has a single run of pressed samples, yet the mode is advanced twice and ends
at 0 instead of 2. -/
theorem debounce_held_press_refires :
    runLengths (List.replicate 258 true) = [258] ∧
    longRuns (List.replicate 258 true) = 1 ∧
    advanceCount initState (List.replicate 258 true) = 2 ∧
    (advanceFlags initState (List.replicate 258 true)).get? 1 = some true ∧
    (advanceFlags initState (List.replicate 258 true)).get? 257 = some true ∧
    (secondOfRun (List.replicate 258 true)).get? 257 = some false ∧
    debounceRun initState (List.replicate 257 true) = { btnRightActive := 1, s_state := 2 } ∧
    debounceRun initState (List.replicate 258 true) = { btnRightActive := 2, s_state := 0 } := by
  set_option maxRecDepth 100000 in
  refine ⟨by decide, by decide, by decide, by decide, by decide, by decide, by decide, by decide⟩

/-- C2: on the display modes 0, 1, 2 the mode advance of `app_main`
(`if (s_state < 2) s_state += 1; else s_state = 0;`) is the successor modulo 3; three
advances return to the starting mode; and from the initial mode 1 three confirmed
presses (two pressed samples, then a release) lead to 2, then 0, then 1. -/
theorem advanceMode_eq_succ_mod_three (m : Nat) (hm : m < 3) :
    advanceMode m = (m + 1) % 3 ∧
    advanceMode (advanceMode (advanceMode m)) = m ∧
    (debounceRun initState [true, true, false]).s_state = 2 ∧
    (debounceRun initState [true, true, false, true, true, false]).s_state = 0 ∧
    (debounceRun initState
      [true, true, false, true, true, false, true, true, false]).s_state = 1 := by
  refine ⟨?_, ?_, by decide, by decide, by decide⟩
  · interval_cases m <;> decide
  · interval_cases m <;> decide

/-- Witness for C2 at mode 2, where the advance wraps to 0. -/
theorem advanceMode_eq_succ_mod_three_witness :
    (2 : Nat) < 3 ∧ advanceMode 2 = (2 + 1) % 3 ∧
    advanceMode (advanceMode (advanceMode 2)) = 2 :=
  ⟨by decide, (advanceMode_eq_succ_mod_three 2 (by decide)).1,
    (advanceMode_eq_succ_mod_three 2 (by decide)).2.1⟩

/-- C8 (evaluation of the code at counter 255): after 255 consecutive pressed samples
from the initial state the debouncer is in state (counter 255, mode 2); one more pressed
sample stores 0 in the `uint8_t` counter, not 256, and leaves the mode unchanged. -/
theorem debounce_counter_wraps_at_255 :
    debounceRun initState (List.replicate 255 true) = { btnRightActive := 255, s_state := 2 } ∧
    debounceStep { btnRightActive := 255, s_state := 2 } true =
      { btnRightActive := 0, s_state := 2 } ∧
    (debounceStep { btnRightActive := 255, s_state := 2 } true).btnRightActive ≠ 255 + 1 := by
  set_option maxRecDepth 100000 in
  refine ⟨by decide, by decide, by decide⟩

/-! ## Resistance derivation -/

theorem wrapI32_of_fits (x : Int) (h1 : -2147483648 ≤ x) (h2 : x ≤ 2147483647) :
    wrapI32 x = x := by
  unfold wrapI32
  omega

theorem resistance_eq_four_mul (v : Int) (h1 : -214748 ≤ v) (h2 : v ≤ 214748) :
    potentiometer_get_resistance v = 4 * v := by
  unfold potentiometer_get_resistance
  have h : wrapI32 (v * 10000) = (4 * v) * 2500 := by
    rw [wrapI32_of_fits _ (by omega) (by omega)]
    ring
  rw [h, Int.mul_tdiv_cancel _ (by decide)]
  exact wrapI32_of_fits _ (by omega) (by omega)

/-- C3 (counterexample): for the 32-bit input 214749 the product `voltage_mV * 10000`
leaves the 32-bit range and the code returns -858990, while the truncated quotient of
`214749 * 10000` by 2500 is 858996. For the input 2^30 that quotient is 2^32, which no
`int32_t` result can equal; the code returns 0. -/
theorem resistance_overflow_counterexample :
    potentiometer_get_resistance 214749 = -858990 ∧
    Int.tdiv (214749 * 10000) 2500 = 858996 ∧
    potentiometer_get_resistance 214749 ≠ Int.tdiv (214749 * 10000) 2500 ∧
    potentiometer_get_resistance 1073741824 = 0 ∧
    Int.tdiv (1073741824 * 10000) 2500 = 4294967296 ∧
    potentiometer_get_resistance 1073741824 ≠ Int.tdiv (1073741824 * 10000) 2500 := by
  refine ⟨by decide, by decide, by decide, by decide, by decide, by decide⟩

/-- C3 (amended): for every calibrated millivolt input `v` with -214748 ≤ v ≤ 214748,
the inputs whose product with 10000 fits in a signed 32-bit integer, the resistance
returned by `potentiometer_get_resistance` is the quotient of `v * 10000` by 2500
truncated toward zero; 2500 gives 10000, 0 gives 0, 1250 gives 5000, 2501 gives 10004. -/
theorem resistance_eq_truncated_quotient (v : Int) (h1 : -214748 ≤ v) (h2 : v ≤ 214748) :
    potentiometer_get_resistance v = Int.tdiv (v * 10000) 2500 ∧
    potentiometer_get_resistance 2500 = 10000 ∧
    potentiometer_get_resistance 0 = 0 ∧
    potentiometer_get_resistance 1250 = 5000 ∧
    potentiometer_get_resistance 2501 = 10004 := by
  refine ⟨?_, by decide, by decide, by decide, by decide⟩
  rw [resistance_eq_four_mul v h1 h2]
  have h : v * 10000 = (4 * v) * 2500 := by ring
  rw [h, Int.mul_tdiv_cancel _ (by decide)]

/-- Witness for C3 (amended) at the negative input -3300 mV. -/
theorem resistance_eq_truncated_quotient_witness :
    potentiometer_get_resistance (-3300) = Int.tdiv (-3300 * 10000) 2500 :=
  (resistance_eq_truncated_quotient (-3300) (by decide) (by decide)).1

/-- C10: for every calibrated millivolt value `v` with -214748 ≤ v ≤ 214748 the
resistance returned by `potentiometer_get_resistance` is exactly `4 * v`: the division by
2500 leaves no remainder, the result is a multiple of 4 and has the sign of `v`. -/
theorem resistance_exact_in_range (v : Int) (h1 : -214748 ≤ v) (h2 : v ≤ 214748) :
    potentiometer_get_resistance v = 4 * v ∧
    Int.tmod (wrapI32 (v * 10000)) 2500 = 0 ∧
    potentiometer_get_resistance v * 2500 = v * 10000 ∧
    (4 : Int) ∣ potentiometer_get_resistance v ∧
    Int.sign (potentiometer_get_resistance v) = Int.sign v := by
  have h := resistance_eq_four_mul v h1 h2
  refine ⟨h, ?_, ?_, ?_, ?_⟩
  · rw [wrapI32_of_fits _ (by omega) (by omega)]
    have hv : v * 10000 = (4 * v) * 2500 := by ring
    rw [hv]
    exact Int.mul_tmod_left _ _
  · rw [h]; ring
  · rw [h]; exact Dvd.intro v rfl
  · rw [h, Int.sign_mul]
    have h4 : Int.sign 4 = 1 := by decide
    rw [h4, Int.one_mul]

/-- Witness for C10 at the largest input whose product fits, 214748 mV. -/
theorem resistance_exact_in_range_witness :
    potentiometer_get_resistance 214748 = 4 * 214748 ∧
    Int.sign (potentiometer_get_resistance 214748) = Int.sign 214748 :=
  ⟨(resistance_exact_in_range 214748 (by decide) (by decide)).1,
    (resistance_exact_in_range 214748 (by decide) (by decide)).2.2.2.2⟩

/-! ## Sensor response bytes -/

theorem shift_or_eq (hi lo : Nat) (hlo : lo < 256) : (hi <<< 8) ||| lo = 256 * hi + lo := by
  rw [Nat.shiftLeft_eq, Nat.mul_comm]
  have h : lo < 2 ^ 8 := by simpa using hlo
  have := Nat.mul_add_lt_is_or h hi
  simpa using this.symm

theorem rawTemperature_eq (b0 b1 b2 b3 b4 b5 : Nat) (h0 : b0 < 256) (h1 : b1 < 256) :
    rawTemperature [b0, b1, b2, b3, b4, b5] = 256 * b0 + b1 := by
  simp only [rawTemperature, List.getD_cons_zero, List.getD_cons_succ]
  rw [shift_or_eq b0 b1 h1]
  unfold u16
  omega

theorem rawHumidity_eq (b0 b1 b2 b3 b4 b5 : Nat) (h3 : b3 < 256) (h4 : b4 < 256) :
    rawHumidity [b0, b1, b2, b3, b4, b5] = 256 * b3 + b4 := by
  simp only [rawHumidity, List.getD_cons_zero, List.getD_cons_succ]
  rw [shift_or_eq b3 b4 h4]
  unfold u16
  omega

/-- C5: for every 6-byte response `b0 .. b5`, `shtc3_readRegister` decodes the raw
temperature code `256 * b0 + b1` and the raw humidity code `256 * b3 + b4`, both within
0..65535, and the decoded pair does not depend on the bytes at indices 2 and 5. -/
theorem shtc3_readRegister_raw_codes (b0 b1 b2 b3 b4 b5 c2 c5 : Nat) (rest : List I2cReply)
    (tr : List BusEvent)
    (h0 : b0 < 256) (h1 : b1 < 256) (h2 : b2 < 256) (h3 : b3 < 256) (h4 : b4 < 256)
    (h5 : b5 < 256) :
    rawTemperature [b0, b1, b2, b3, b4, b5] = 256 * b0 + b1 ∧
    rawHumidity [b0, b1, b2, b3, b4, b5] = 256 * b3 + b4 ∧
    256 * b0 + b1 ≤ 65535 ∧ 256 * b3 + b4 ≤ 65535 ∧
    (shtc3_readRegister
        { replies := I2cReply.ok [b0, b1, b2, b3, b4, b5] :: rest, trace := tr }).2 =
      some (decodeTemperature f32Round (256 * b0 + b1),
            decodeHumidity f32Round (256 * b3 + b4)) ∧
    shtc3_decode f32Round [b0, b1, b2, b3, b4, b5] =
      shtc3_decode f32Round [b0, b1, c2, b3, b4, c5] ∧
    shtc3_decode id [b0, b1, b2, b3, b4, b5] = shtc3_decode id [b0, b1, c2, b3, b4, c5] := by
  have hT := rawTemperature_eq b0 b1 b2 b3 b4 b5 h0 h1
  have hH := rawHumidity_eq b0 b1 b2 b3 b4 b5 h3 h4
  have hT' := rawTemperature_eq b0 b1 c2 b3 b4 c5 h0 h1
  have hH' := rawHumidity_eq b0 b1 c2 b3 b4 c5 h3 h4
  refine ⟨hT, hH, by omega, by omega, ?_, ?_, ?_⟩
  · have hu : ∀ b, b < 256 → u8 b = b := by
      intro b hb; unfold u8; omega
    simp [shtc3_readRegister, i2c_master_read_from_device, ESP_ERROR_CHECK, shtc3_decode, hu, h0, h1, h2, h3,
      h4, h5, hT, hH]
  · simp only [shtc3_decode, hT, hH, hT', hH']
  · simp only [shtc3_decode, hT, hH, hT', hH']

/-- Witness for C5: the response 0x80 0x00 0x12 0xFF 0xFF 0x34 and the same response
with the two check bytes replaced by 0. -/
theorem shtc3_readRegister_raw_codes_witness :
    rawTemperature [128, 0, 18, 255, 255, 52] = 256 * 128 + 0 ∧
    rawHumidity [128, 0, 18, 255, 255, 52] = 256 * 255 + 255 ∧
    shtc3_decode f32Round [128, 0, 18, 255, 255, 52] =
      shtc3_decode f32Round [128, 0, 0, 255, 255, 0] :=
  have h := shtc3_readRegister_raw_codes 128 0 18 255 255 52 0 0 [] []
    (by decide) (by decide) (by decide) (by decide) (by decide) (by decide)
  ⟨h.1, h.2.1, h.2.2.2.2.2.1⟩

/-! ## Acquisition sequence -/

theorem and_wake : 13591 &&& 255 = 23 := by decide

theorem and_measure : 31906 &&& 255 = 162 := by decide

theorem and_sleep : 45208 &&& 255 = 152 := by decide

theorem shtc3_command_bytes (cmd : Nat) (h : cmd < 65536) :
    [u8 (cmd >>> 8), u8 (cmd &&& 0xFF)] = [cmd / 256, cmd % 256] := by
  have h1 : cmd >>> 8 = cmd / 256 := by
    rw [Nat.shiftRight_eq_div_pow]
  have h2 : cmd &&& 0xFF = cmd % 256 := by
    have := Nat.and_pow_two_sub_one_eq_mod cmd 8
    simpa using this
  rw [h1, h2]
  unfold u8
  congr 1
  · omega
  · congr 1
    omega

theorem shtc3_writeRegister_trace (cmd : Nat) (bus : Bus) :
    (shtc3_writeRegister cmd bus).1.trace =
      bus.trace ++ [BusEvent.write SHTC3_ADDR [u8 (cmd >>> 8), u8 (cmd &&& 0xFF)] 50] := by
  rcases bus with ⟨replies, tr⟩
  rcases replies with _ | ⟨r, rest⟩
  · simp [shtc3_writeRegister, i2c_master_write_to_device, ESP_ERROR_CHECK]
  · cases r <;> simp [shtc3_writeRegister, i2c_master_write_to_device, ESP_ERROR_CHECK]

/-- The actions of an invocation on a bus whose next four transactions succeed. -/
theorem shtc3_getValues_of_ok (d0 d1 d2 d3 : List Nat) (rest : List I2cReply)
    (tr : List BusEvent) :
    shtc3_getValues
        { replies := I2cReply.ok d0 :: I2cReply.ok d1 :: I2cReply.ok d2 :: I2cReply.ok d3 :: rest,
          trace := tr } =
      ({ replies := rest, trace := tr ++ acquisitionSequence },
        some (shtc3_decode f32Round (((d2.map u8) ++ List.replicate 6 0).take 6))) := by
  simp [shtc3_getValues, shtc3_writeRegister, shtc3_readRegister, i2c_master_write_to_device, ESP_ERROR_CHECK,
    i2c_master_read_from_device, vTaskDelay, acquisitionSequence, SHTC3_ADDR, u8, and_wake, and_measure, and_sleep]

theorem leadingOk_ge_four_iff (replies : List I2cReply) :
    4 ≤ leadingOk replies ↔
      ∃ d0 d1 d2 d3 rest,
        replies = I2cReply.ok d0 :: I2cReply.ok d1 :: I2cReply.ok d2 :: I2cReply.ok d3 :: rest := by
  constructor
  · intro h
    rcases replies with _ | ⟨r0, rs0⟩
    · simp [leadingOk] at h
    cases r0 with
    | fail => simp [leadingOk] at h
    | ok d0 =>
      rcases rs0 with _ | ⟨r1, rs1⟩
      · simp [leadingOk] at h
      cases r1 with
      | fail => simp [leadingOk] at h
      | ok d1 =>
        rcases rs1 with _ | ⟨r2, rs2⟩
        · simp [leadingOk] at h
        cases r2 with
        | fail => simp [leadingOk] at h
        | ok d2 =>
          rcases rs2 with _ | ⟨r3, rs3⟩
          · simp [leadingOk] at h
          cases r3 with
          | fail => simp [leadingOk] at h
          | ok d3 => exact ⟨d0, d1, d2, d3, rs3, rfl⟩
  · rintro ⟨d0, d1, d2, d3, rest, rfl⟩
    simp [leadingOk]

/-- An invocation in which a transaction fails: it is aborted at the first failing
transaction, number `leadingOk` counted from 0, having consumed the outcomes up to that
one and performed exactly the actions up to and including it. -/
theorem shtc3_getValues_of_fail (bus : Bus) (h : leadingOk bus.replies < 4) :
    shtc3_getValues bus =
      ({ replies := bus.replies.drop (leadingOk bus.replies + 1),
         trace := bus.trace ++ acquisitionSequence.take (2 * leadingOk bus.replies + 1) },
        none) := by
  rcases bus with ⟨replies, tr⟩
  rcases replies with _ | ⟨r0, rs0⟩
  · simp [leadingOk, shtc3_getValues, shtc3_writeRegister, i2c_master_write_to_device,
      ESP_ERROR_CHECK, acquisitionSequence, SHTC3_ADDR, u8, and_wake, and_measure, and_sleep]
  cases r0 with
  | fail =>
    simp [leadingOk, shtc3_getValues, shtc3_writeRegister, i2c_master_write_to_device,
      ESP_ERROR_CHECK, acquisitionSequence, SHTC3_ADDR, u8, and_wake, and_measure, and_sleep]
  | ok d0 =>
    rcases rs0 with _ | ⟨r1, rs1⟩
    · simp [leadingOk, shtc3_getValues, shtc3_writeRegister, i2c_master_write_to_device,
        ESP_ERROR_CHECK, vTaskDelay, acquisitionSequence, SHTC3_ADDR, u8, and_wake,
        and_measure, and_sleep]
    cases r1 with
    | fail =>
      simp [leadingOk, shtc3_getValues, shtc3_writeRegister, i2c_master_write_to_device,
        ESP_ERROR_CHECK, vTaskDelay, acquisitionSequence, SHTC3_ADDR, u8, and_wake,
        and_measure, and_sleep]
    | ok d1 =>
      rcases rs1 with _ | ⟨r2, rs2⟩
      · simp [leadingOk, shtc3_getValues, shtc3_writeRegister, shtc3_readRegister,
          i2c_master_write_to_device, i2c_master_read_from_device, ESP_ERROR_CHECK,
          vTaskDelay, acquisitionSequence, SHTC3_ADDR, u8, and_wake, and_measure, and_sleep]
      cases r2 with
      | fail =>
        simp [leadingOk, shtc3_getValues, shtc3_writeRegister, shtc3_readRegister,
          i2c_master_write_to_device, i2c_master_read_from_device, ESP_ERROR_CHECK,
          vTaskDelay, acquisitionSequence, SHTC3_ADDR, u8, and_wake, and_measure, and_sleep]
      | ok d2 =>
        rcases rs2 with _ | ⟨r3, rs3⟩
        · simp [leadingOk, shtc3_getValues, shtc3_writeRegister, shtc3_readRegister,
            i2c_master_write_to_device, i2c_master_read_from_device, ESP_ERROR_CHECK,
            vTaskDelay, acquisitionSequence, SHTC3_ADDR, u8, and_wake, and_measure,
            and_sleep]
        cases r3 with
        | fail =>
          simp [leadingOk, shtc3_getValues, shtc3_writeRegister, shtc3_readRegister,
            i2c_master_write_to_device, i2c_master_read_from_device, ESP_ERROR_CHECK,
            vTaskDelay, acquisitionSequence, SHTC3_ADDR, u8, and_wake, and_measure,
            and_sleep]
        | ok d3 =>
          simp only [leadingOk] at h
          omega

/-- An invocation returns exactly when none of its four transactions fails. -/
theorem shtc3_getValues_returns_iff (bus : Bus) :
    (shtc3_getValues bus).2 ≠ none ↔ 4 ≤ leadingOk bus.replies := by
  constructor
  · intro h
    by_contra hlt
    rw [shtc3_getValues_of_fail bus (by omega)] at h
    exact h rfl
  · intro h
    obtain ⟨d0, d1, d2, d3, rest, hrep⟩ := (leadingOk_ge_four_iff bus.replies).mp h
    rcases bus with ⟨replies, tr⟩
    simp only at hrep
    subst hrep
    rw [shtc3_getValues_of_ok]
    simp

/-- C6 (counterexample): when the wake command is not acknowledged, `ESP_ERROR_CHECK`
aborts inside the first `shtc3_writeRegister`; the invocation has performed the single
write of 0x35 0x17 and none of the six later actions. -/
theorem shtc3_getValues_aborts_on_failed_wake :
    shtc3_getValues { replies := [I2cReply.fail], trace := [] } =
      ({ replies := [], trace := [BusEvent.write 0x70 [0x35, 0x17] 50] }, none) ∧
    (shtc3_getValues { replies := [I2cReply.fail], trace := [] }).1.trace ≠
      [ BusEvent.write 0x70 [0x35, 0x17] 50, BusEvent.delay 15,
        BusEvent.write 0x70 [0x7C, 0xA2] 50, BusEvent.delay 20,
        BusEvent.read 0x70 6 100, BusEvent.delay 10,
        BusEvent.write 0x70 [0xB0, 0x98] 50 ] := by
  have h : shtc3_getValues { replies := [I2cReply.fail], trace := [] } =
      ({ replies := [], trace := [BusEvent.write 0x70 [0x35, 0x17] 50] }, none) := by
    simp [shtc3_getValues, shtc3_writeRegister, i2c_master_write_to_device, ESP_ERROR_CHECK, SHTC3_ADDR, u8, and_wake, and_measure, and_sleep]
  refine ⟨h, ?_⟩
  rw [h]
  decide

/-- C6 (amended): an invocation of `shtc3_getValues` returns exactly when none of its
four bus transactions fails, and then it performs exactly this sequence: write 0x35 0x17,
delay 15 ms, write 0x7C 0xA2, delay 20 ms, read 6 bytes, delay 10 ms, write 0xB0 0x98;
each write is a 2-byte big-endian buffer to address 0x70 with a 50 ms timeout and the
read has a 100 ms timeout. When transaction number `i` (counted from 0: wake, measure,
read, sleep) is the first to fail, the invocation is aborted there without a result and
has performed exactly the first `2 * i + 1` actions of the sequence, those up to and
including the failed transaction, and nothing after it. -/
theorem shtc3_getValues_sequence (bus : Bus) (cmd : Nat) (hcmd : cmd < 65536) :
    ((shtc3_getValues bus).2 ≠ none ↔ 4 ≤ leadingOk bus.replies) ∧
    ((shtc3_getValues bus).2 ≠ none ↔
      ∃ d0 d1 d2 d3 rest,
        bus.replies =
          I2cReply.ok d0 :: I2cReply.ok d1 :: I2cReply.ok d2 :: I2cReply.ok d3 :: rest) ∧
    ((shtc3_getValues bus).2 ≠ none →
      (shtc3_getValues bus).1 =
        { replies := bus.replies.drop 4,
          trace := bus.trace ++
            [ BusEvent.write 0x70 [0x35, 0x17] 50, BusEvent.delay 15,
              BusEvent.write 0x70 [0x7C, 0xA2] 50, BusEvent.delay 20,
              BusEvent.read 0x70 6 100, BusEvent.delay 10,
              BusEvent.write 0x70 [0xB0, 0x98] 50 ] }) ∧
    (∀ i, i < 4 → leadingOk bus.replies = i →
      shtc3_getValues bus =
        ({ replies := bus.replies.drop (i + 1),
           trace := bus.trace ++ acquisitionSequence.take (2 * i + 1) }, none)) ∧
    (acquisitionSequence.take 1 = [BusEvent.write 0x70 [0x35, 0x17] 50] ∧
      acquisitionSequence.take 3 =
        [ BusEvent.write 0x70 [0x35, 0x17] 50, BusEvent.delay 15,
          BusEvent.write 0x70 [0x7C, 0xA2] 50 ] ∧
      acquisitionSequence.take 5 =
        [ BusEvent.write 0x70 [0x35, 0x17] 50, BusEvent.delay 15,
          BusEvent.write 0x70 [0x7C, 0xA2] 50, BusEvent.delay 20,
          BusEvent.read 0x70 6 100 ] ∧
      acquisitionSequence.take 7 =
        [ BusEvent.write 0x70 [0x35, 0x17] 50, BusEvent.delay 15,
          BusEvent.write 0x70 [0x7C, 0xA2] 50, BusEvent.delay 20,
          BusEvent.read 0x70 6 100, BusEvent.delay 10,
          BusEvent.write 0x70 [0xB0, 0x98] 50 ]) ∧
    (shtc3_writeRegister cmd bus).1.trace =
      bus.trace ++ [BusEvent.write 0x70 [cmd / 256, cmd % 256] 50] ∧
    256 * (cmd / 256) + cmd % 256 = cmd ∧ cmd / 256 < 256 ∧ cmd % 256 < 256 := by
  have hiff := shtc3_getValues_returns_iff bus
  refine ⟨hiff, hiff.trans (leadingOk_ge_four_iff bus.replies), ?_, ?_,
    ⟨by decide, by decide, by decide, by decide⟩, ?_, by omega, by omega, by omega⟩
  · intro hret
    obtain ⟨d0, d1, d2, d3, rest, hrep⟩ :=
      (leadingOk_ge_four_iff bus.replies).mp (hiff.mp hret)
    rcases bus with ⟨replies, tr⟩
    simp only at hrep
    subst hrep
    rw [shtc3_getValues_of_ok]
    rfl
  · intro i hi hlead
    subst hlead
    exact shtc3_getValues_of_fail bus hi
  · rw [shtc3_writeRegister_trace, shtc3_command_bytes cmd hcmd]
    rfl

/-- Witness for C6 (amended): a bus that acknowledges all four transactions and answers
the read with 0x80 0x00 0x12 0xFF 0xFF 0x34, and a bus on which the wake command is
acknowledged and the measure command is not; the command is the wake command 0x3517. -/
theorem shtc3_getValues_sequence_witness :
    (shtc3_getValues
      { replies := [I2cReply.ok [], I2cReply.ok [], I2cReply.ok [128, 0, 18, 255, 255, 52],
                    I2cReply.ok []],
        trace := [] }).1 =
      { replies := [],
        trace :=
          [ BusEvent.write 0x70 [0x35, 0x17] 50, BusEvent.delay 15,
            BusEvent.write 0x70 [0x7C, 0xA2] 50, BusEvent.delay 20,
            BusEvent.read 0x70 6 100, BusEvent.delay 10,
            BusEvent.write 0x70 [0xB0, 0x98] 50 ] } ∧
    shtc3_getValues
        { replies := [I2cReply.ok [], I2cReply.fail, I2cReply.ok [128, 0, 18, 255, 255, 52],
                      I2cReply.ok []],
          trace := [] } =
      ({ replies := [I2cReply.ok [128, 0, 18, 255, 255, 52], I2cReply.ok []],
         trace :=
          [ BusEvent.write 0x70 [0x35, 0x17] 50, BusEvent.delay 15,
            BusEvent.write 0x70 [0x7C, 0xA2] 50 ] }, none) :=
  ⟨(shtc3_getValues_sequence
      { replies := [I2cReply.ok [], I2cReply.ok [], I2cReply.ok [128, 0, 18, 255, 255, 52],
                    I2cReply.ok []],
        trace := [] } 0x3517 (by decide)).2.2.1
      (by rw [shtc3_getValues_of_ok]; simp),
    (shtc3_getValues_sequence
      { replies := [I2cReply.ok [], I2cReply.fail, I2cReply.ok [128, 0, 18, 255, 255, 52],
                    I2cReply.ok []],
        trace := [] } 0x3517 (by decide)).2.2.2.1 1 (by decide) (by decide)⟩

/-! ## Display mode invariant -/

theorem advanceFires_iff (st : LoopState) (pressed : Bool) :
    advanceFires st pressed = true ↔
      pressed = true ∧ (debounceStep st pressed).btnRightActive = 2 := by
  cases pressed with
  | false => simp [advanceFires]
  | true =>
    rw [debounceStep_counter]
    simp [advanceFires]

theorem loopIteration_state (st : LoopState) (inp : IterationInput) (bus : Bus)
    (r : LoopState × String) (h : (loopIteration st inp bus).2 = some r) :
    r.1 = debounceStep st inp.pressed := by
  unfold loopIteration at h
  split at h
  · simp at h
  · simp only [Option.some.injEq] at h
    rw [← h]

/-- C9: from the initial state (mode 1, counter 0) the display mode is 0, 1 or 2 after
every finite sequence of button samples; a debouncer step changes the mode only on a
confirmed press (a pressed sample on which the counter becomes 2); a confirmed press in
mode 2 yields mode 0; and the rest of a loop iteration leaves the mode as the debouncer
step left it. -/
theorem display_mode_invariant (samples : List Bool) (st : LoopState) (pressed : Bool)
    (inp : IterationInput) (bus : Bus) :
    initState = { btnRightActive := 0, s_state := 1 } ∧
    (debounceRun initState samples).s_state < 3 ∧
    ((debounceStep st pressed).s_state ≠ st.s_state →
      pressed = true ∧ (debounceStep st pressed).btnRightActive = 2) ∧
    (pressed = true → (debounceStep st pressed).btnRightActive = 2 → st.s_state = 2 →
      (debounceStep st pressed).s_state = 0) ∧
    (∀ r, (loopIteration st inp bus).2 = some r → r.1 = debounceStep st inp.pressed) := by
  refine ⟨rfl, debounceRun_mode_lt_three samples initState (by decide), ?_, ?_,
    fun r h => loopIteration_state st inp bus r h⟩
  · intro hne
    rw [← advanceFires_iff]
    rw [debounceStep_s_state] at hne
    by_contra hf
    rw [if_neg hf] at hne
    exact hne rfl
  · intro hp hc hm
    have hf : advanceFires st pressed = true := (advanceFires_iff st pressed).mpr ⟨hp, hc⟩
    rw [debounceStep_s_state, if_pos hf, hm]
    decide

/-- Witness for C9: the confirmed press that takes mode 2 to mode 0. -/
theorem display_mode_invariant_witness :
    (debounceRun initState [true, true, false, true, true]).s_state < 3 ∧
    (debounceStep { btnRightActive := 1, s_state := 2 } true).s_state = 0 :=
  have h := display_mode_invariant [true, true, false, true, true]
    { btnRightActive := 1, s_state := 2 } true { pressed := true, voltage_mV := 0 }
    { replies := [], trace := [] }
  ⟨h.2.1, h.2.2.2.1 rfl (by decide) rfl⟩

/-! ## Report line -/

theorem digitChar_isDigit (d : Nat) (h : d < 10) : (Nat.digitChar d).isDigit = true := by
  interval_cases d <;> decide

theorem toDigitsCore_isDigit (fuel : Nat) :
    ∀ (n : Nat) (ds : List Char), (∀ c ∈ ds, c.isDigit = true) →
      ∀ c ∈ Nat.toDigitsCore 10 fuel n ds, c.isDigit = true := by
  induction fuel with
  | zero => intro n ds h; simpa [Nat.toDigitsCore] using h
  | succ f ih =>
    intro n ds h
    have hd : ∀ c ∈ (n % 10).digitChar :: ds, c.isDigit = true := by
      intro c hc
      rcases List.mem_cons.mp hc with rfl | hc
      · exact digitChar_isDigit _ (Nat.mod_lt _ (by decide))
      · exact h c hc
    simp only [Nat.toDigitsCore]
    split
    · exact hd
    · exact ih _ _ hd

theorem toDigitsCore_length (fuel : Nat) :
    ∀ (n : Nat) (ds : List Char), ds.length ≤ (Nat.toDigitsCore 10 fuel n ds).length := by
  induction fuel with
  | zero => intro n ds; simp [Nat.toDigitsCore]
  | succ f ih =>
    intro n ds
    simp only [Nat.toDigitsCore]
    split
    · simp
    · exact le_trans (by simp) (ih _ _)

theorem decimalDigits_isDigit (n : Nat) : ∀ c ∈ decimalDigits n, c.isDigit = true :=
  toDigitsCore_isDigit (n + 1) n [] (by simp)

theorem decimalDigits_ne_nil (n : Nat) : decimalDigits n ≠ [] := by
  intro h
  have hlen : 1 ≤ (decimalDigits n).length := by
    unfold decimalDigits Nat.toDigits
    simp only [Nat.toDigitsCore]
    split
    · simp
    · exact le_trans (by simp) (toDigitsCore_length _ _ _)
  rw [h] at hlen
  simp at hlen

/-- Shape of `%.2f` output: an optional minus sign, at least one digit, a point and
exactly two digits. -/
theorem formatFixed2_shape (x : ℚ) :
    ∃ (sign whole : List Char) (d1 d2 : Char),
      formatFixed2 x = sign ++ whole ++ ['.', d1, d2] ∧
      (sign = [] ∨ sign = ['-']) ∧ whole ≠ [] ∧ (∀ c ∈ whole, c.isDigit = true) ∧
      d1.isDigit = true ∧ d2.isDigit = true := by
  refine ⟨if x < 0 then ['-'] else [], decimalDigits ((roundHalfEven (|x| * 100)).toNat / 100),
    Nat.digitChar ((roundHalfEven (|x| * 100)).toNat / 10 % 10),
    Nat.digitChar ((roundHalfEven (|x| * 100)).toNat % 10), rfl, ?_, decimalDigits_ne_nil _,
    decimalDigits_isDigit _, digitChar_isDigit _ (Nat.mod_lt _ (by decide)),
    digitChar_isDigit _ (Nat.mod_lt _ (by decide))⟩
  split
  · exact Or.inr rfl
  · exact Or.inl rfl

/-- Shape of `%ld` output: an optional minus sign and digits, hence no decimal point. -/
theorem formatLong_shape (i : Int) :
    (∀ c ∈ formatLong i, c.isDigit = true ∨ c = '-') ∧ '.' ∉ formatLong i := by
  have h : ∀ c ∈ formatLong i, c.isDigit = true ∨ c = '-' := by
    intro c hc
    unfold formatLong at hc
    rcases List.mem_append.mp hc with hs | hd
    · split at hs
      · right; simpa using hs
      · simp at hs
    · exact Or.inl (decimalDigits_isDigit _ c hd)
  refine ⟨h, ?_⟩
  intro hmem
  rcases h '.' hmem with h1 | h1
  · exact absurd h1 (by decide)
  · exact absurd h1 (by decide)

theorem roundHalfEven_intCast (n : Int) : roundHalfEven (n : ℚ) = n := by
  unfold roundHalfEven
  simp

set_option maxRecDepth 1000000 in
theorem report_mode0 (temp hum : ℚ) (resistance : Int) :
    report 0 temp hum resistance =
      String.mk ("\x7b\"payload\":[\x7b\"displayName\":\"Temperature\",\"displayUnit\":\"°C\",\"data\":".toList ++ (formatFixed2 temp ++ "\x7d]\x7d\n".toList)) := rfl

set_option maxRecDepth 1000000 in
theorem report_mode1 (temp hum : ℚ) (resistance : Int) :
    report 1 temp hum resistance =
      String.mk ("\x7b\"payload\":[\x7b\"displayName\":\"Temperature\",\"displayUnit\":\"°C\",\"data\":".toList ++ (formatFixed2 temp ++ ("\x7d,\x7b\"displayName\":\"Humidity\",\"displayUnit\":\"%\",\"data\":".toList ++
        (formatFixed2 hum ++ "\x7d]\x7d\n".toList)))) := rfl

set_option maxRecDepth 1000000 in
theorem report_mode2 (temp hum : ℚ) (resistance : Int) :
    report 2 temp hum resistance =
      String.mk ("\x7b\"payload\":[\x7b\"displayName\":\"Temperature\",\"displayUnit\":\"°C\",\"data\":".toList ++ (formatFixed2 temp ++ ("\x7d,\x7b\"displayName\":\"Humidity\",\"displayUnit\":\"%\",\"data\":".toList ++
        (formatFixed2 hum ++ ("\x7d,\x7b\"displayName\":\"Resistance\",\"displayUnit\": \"Ohm\",\"data\":".toList ++
          (formatLong resistance ++ "\x7d]\x7d\n".toList)))))) := rfl

set_option maxRecDepth 1000000 in
theorem payloadLine_mode0 (temp : ℚ) :
    payloadLine [temperatureEntry temp] =
      String.mk ("\x7b\"payload\":[\x7b\"displayName\":\"Temperature\",\"displayUnit\":\"°C\",\"data\":".toList ++ (formatFixed2 temp ++ "\x7d]\x7d\n".toList)) := by
  have h : payloadLine [temperatureEntry temp] =
      String.mk (("\x7b\"payload\":[".toList ++ (("\x7b\"displayName\":\"Temperature\",\"displayUnit\":\"°C\",\"data\":".toList ++ formatFixed2 temp) ++ "\x7d".toList)) ++
        "]\x7d\n".toList) := rfl
  rw [h]
  simp only [List.append_assoc]
  rfl

set_option maxRecDepth 1000000 in
theorem payloadLine_mode1 (temp hum : ℚ) :
    payloadLine [temperatureEntry temp, humidityEntry hum] =
      String.mk ("\x7b\"payload\":[\x7b\"displayName\":\"Temperature\",\"displayUnit\":\"°C\",\"data\":".toList ++ (formatFixed2 temp ++ ("\x7d,\x7b\"displayName\":\"Humidity\",\"displayUnit\":\"%\",\"data\":".toList ++
        (formatFixed2 hum ++ "\x7d]\x7d\n".toList)))) := by
  have h : payloadLine [temperatureEntry temp, humidityEntry hum] =
      String.mk (("\x7b\"payload\":[".toList ++ (((("\x7b\"displayName\":\"Temperature\",\"displayUnit\":\"°C\",\"data\":".toList ++ formatFixed2 temp) ++ "\x7d".toList) ++
        ",".toList) ++ (("\x7b\"displayName\":\"Humidity\",\"displayUnit\":\"%\",\"data\":".toList ++ formatFixed2 hum) ++ "\x7d".toList))) ++
        "]\x7d\n".toList) := rfl
  rw [h]
  simp only [List.append_assoc]
  rfl

set_option maxRecDepth 1000000 in
theorem payloadLine_mode2 (temp hum : ℚ) (resistance : Int) :
    payloadLine [temperatureEntry temp, humidityEntry hum, resistanceEntry resistance] =
      String.mk ("\x7b\"payload\":[\x7b\"displayName\":\"Temperature\",\"displayUnit\":\"°C\",\"data\":".toList ++ (formatFixed2 temp ++ ("\x7d,\x7b\"displayName\":\"Humidity\",\"displayUnit\":\"%\",\"data\":".toList ++
        (formatFixed2 hum ++ ("\x7d,\x7b\"displayName\":\"Resistance\",\"displayUnit\": \"Ohm\",\"data\":".toList ++
          (formatLong resistance ++ "\x7d]\x7d\n".toList)))))) := by
  have h : payloadLine [temperatureEntry temp, humidityEntry hum, resistanceEntry resistance] =
      String.mk (("\x7b\"payload\":[".toList ++ (((((("\x7b\"displayName\":\"Temperature\",\"displayUnit\":\"°C\",\"data\":".toList ++ formatFixed2 temp) ++ "\x7d".toList) ++
        ",".toList) ++ (("\x7b\"displayName\":\"Humidity\",\"displayUnit\":\"%\",\"data\":".toList ++ formatFixed2 hum) ++ "\x7d".toList)) ++ ",".toList) ++
        (("\x7b\"displayName\":\"Resistance\",\"displayUnit\": \"Ohm\",\"data\":".toList ++ formatLong resistance) ++ "\x7d".toList))) ++ "]\x7d\n".toList) := rfl
  rw [h]
  simp only [List.append_assoc]
  rfl

theorem formatFixed2_25 : formatFixed2 25 = ['2', '5', '.', '0', '0'] := by
  have h : |(25 : ℚ)| * 100 = ((2500 : Int) : ℚ) := by norm_num
  unfold formatFixed2
  rw [h, roundHalfEven_intCast]
  have hneg : ¬ ((25 : ℚ) < 0) := by norm_num
  rw [if_neg hneg]
  decide

theorem formatFixed2_50 : formatFixed2 50 = ['5', '0', '.', '0', '0'] := by
  have h : |(50 : ℚ)| * 100 = ((5000 : Int) : ℚ) := by norm_num
  unfold formatFixed2
  rw [h, roundHalfEven_intCast]
  have hneg : ¬ ((50 : ℚ) < 0) := by norm_num
  rw [if_neg hneg]
  decide

theorem formatLong_10000 : formatLong 10000 = ['1', '0', '0', '0', '0'] := by decide

theorem loopIteration_of_ok (st : LoopState) (inp : IterationInput) (d0 d1 d2 d3 : List Nat)
    (rest : List I2cReply) (tr : List BusEvent) :
    loopIteration st inp
        { replies := I2cReply.ok d0 :: I2cReply.ok d1 :: I2cReply.ok d2 :: I2cReply.ok d3 :: rest,
          trace := tr } =
      ({ replies := rest, trace := tr ++ acquisitionSequence ++ [BusEvent.delay 55] },
        some (debounceStep st inp.pressed,
          report (debounceStep st inp.pressed).s_state
            (shtc3_decode f32Round (((d2.map u8) ++ List.replicate 6 0).take 6)).1
            (shtc3_decode f32Round (((d2.map u8) ++ List.replicate 6 0).take 6)).2
            (potentiometer_get_resistance inp.voltage_mV))) := by
  unfold loopIteration
  rw [shtc3_getValues_of_ok]
  rfl

/-- C7: for every reading, the line printed in mode 0 is the payload with exactly the
Temperature entry, in mode 1 the Temperature entry followed by the Humidity entry, in
mode 2 the Temperature, Humidity and Resistance entries in that order, each with the
literal field text of the schema and ending in a newline; temperature and humidity are
printed as an optional sign, digits, a point and exactly two decimals, the resistance as
an optional sign and digits without a point; an iteration that completes prints the line
for the mode left by its debouncer step; mode 0 with temperature 25.00 prints exactly
the one-entry line with `25.00`, and mode 2 with 25.00, 50.00 and 10000 prints the
three-entry line with resistance `10000`. -/
theorem report_schema (temp hum : ℚ) (resistance : Int) (st : LoopState)
    (inp : IterationInput) (d0 d1 d2 d3 : List Nat) (rest : List I2cReply)
    (tr : List BusEvent) :
    report 0 temp hum resistance = payloadLine [temperatureEntry temp] ∧
    report 1 temp hum resistance = payloadLine [temperatureEntry temp, humidityEntry hum] ∧
    report 2 temp hum resistance =
      payloadLine [temperatureEntry temp, humidityEntry hum, resistanceEntry resistance] ∧
    (∃ (sign whole : List Char) (d1 d2 : Char),
      formatFixed2 temp = sign ++ whole ++ ['.', d1, d2] ∧
      (sign = [] ∨ sign = ['-']) ∧ whole ≠ [] ∧ (∀ c ∈ whole, c.isDigit = true) ∧
      d1.isDigit = true ∧ d2.isDigit = true) ∧
    (∃ (sign whole : List Char) (d1 d2 : Char),
      formatFixed2 hum = sign ++ whole ++ ['.', d1, d2] ∧
      (sign = [] ∨ sign = ['-']) ∧ whole ≠ [] ∧ (∀ c ∈ whole, c.isDigit = true) ∧
      d1.isDigit = true ∧ d2.isDigit = true) ∧
    ((∀ c ∈ formatLong resistance, c.isDigit = true ∨ c = '-') ∧
      '.' ∉ formatLong resistance) ∧
    (loopIteration st inp
        { replies := I2cReply.ok d0 :: I2cReply.ok d1 :: I2cReply.ok d2 :: I2cReply.ok d3 :: rest,
          trace := tr }).2 =
      some (debounceStep st inp.pressed,
        report (debounceStep st inp.pressed).s_state
          (shtc3_decode f32Round (((d2.map u8) ++ List.replicate 6 0).take 6)).1
          (shtc3_decode f32Round (((d2.map u8) ++ List.replicate 6 0).take 6)).2
          (potentiometer_get_resistance inp.voltage_mV)) ∧
    report 0 25 hum resistance =
      "\x7b\"payload\":[\x7b\"displayName\":\"Temperature\",\"displayUnit\":\"°C\",\"data\":25.00\x7d]\x7d\n" ∧
    report 2 25 50 10000 =
      "\x7b\"payload\":[\x7b\"displayName\":\"Temperature\",\"displayUnit\":\"°C\",\"data\":25.00\x7d,\x7b\"displayName\":\"Humidity\",\"displayUnit\":\"%\",\"data\":50.00\x7d,\x7b\"displayName\":\"Resistance\",\"displayUnit\": \"Ohm\",\"data\":10000\x7d]\x7d\n" := by
  refine ⟨?_, ?_, ?_, formatFixed2_shape temp, formatFixed2_shape hum,
    formatLong_shape resistance, ?_, ?_, ?_⟩
  · rw [report_mode0, payloadLine_mode0]
  · rw [report_mode1, payloadLine_mode1]
  · rw [report_mode2, payloadLine_mode2]
  · rw [loopIteration_of_ok]
  · rw [report_mode0, formatFixed2_25]
    rfl
  · rw [report_mode2, formatFixed2_25, formatFixed2_50, formatLong_10000]
    rfl


/-! ## Single-precision rounding and the decode -/

theorem roundHalfEven_error (x : ℚ) : |(roundHalfEven x : ℚ) - x| ≤ 1 / 2 := by
  have h1 : (⌊x⌋ : ℚ) ≤ x := Int.floor_le x
  have h2 : x < ⌊x⌋ + 1 := Int.lt_floor_add_one x
  unfold roundHalfEven
  rw [abs_le]
  split_ifs with ha hb hc
  · constructor <;> linarith
  · push_cast; constructor <;> linarith
  · constructor <;> linarith
  · push_cast; constructor <;> linarith

theorem f32Round_zero : f32Round 0 = 0 := by
  simp [f32Round, roundHalfEven]

theorem f32Round_error (x : ℚ) : |f32Round x - x| ≤ (2 : ℚ) ^ (f32Exp x - 24) := by
  have hu : (0 : ℚ) < (2 : ℚ) ^ (f32Exp x - 23) := zpow_pos (by norm_num) _
  have hr := roundHalfEven_error (x / (2 : ℚ) ^ (f32Exp x - 23))
  have hsplit : (2 : ℚ) ^ (f32Exp x - 24) = 1 / 2 * (2 : ℚ) ^ (f32Exp x - 23) := by
    have : f32Exp x - 24 = (f32Exp x - 23) + (-1) := by ring
    rw [this, zpow_add₀ (by norm_num : (2 : ℚ) ≠ 0)]
    norm_num
    ring
  have hx : f32Round x - x =
      ((roundHalfEven (x / (2 : ℚ) ^ (f32Exp x - 23)) : ℚ) - x / (2 : ℚ) ^ (f32Exp x - 23)) *
        (2 : ℚ) ^ (f32Exp x - 23) := by
    unfold f32Round
    field_simp
  rw [hx, abs_mul, abs_of_pos hu, hsplit]
  exact mul_le_mul_of_nonneg_right hr (le_of_lt hu)

theorem f32Exp_le (x : ℚ) (k : Int) (hk : -126 ≤ k) (hx0 : x ≠ 0)
    (hx : |x| < (2 : ℚ) ^ (k + 1)) : f32Exp x ≤ k := by
  unfold f32Exp
  have hpos : 0 < |x| := abs_pos.mpr hx0
  have h : Int.log 2 |x| < k + 1 := by
    have := (Int.lt_zpow_iff_log_lt (R := ℚ) (b := 2) (by norm_num) hpos (x := k + 1)).mp
    apply this
    exact_mod_cast hx
  omega

theorem f32Round_error_le (x : ℚ) (k : Int) (hk : -126 ≤ k)
    (hx : |x| < (2 : ℚ) ^ (k + 1)) : |f32Round x - x| ≤ (2 : ℚ) ^ (k - 24) := by
  by_cases hx0 : x = 0
  · subst hx0
    rw [f32Round_zero]
    simp
    exact le_of_lt (zpow_pos (by norm_num) _)
  · refine le_trans (f32Round_error x) ?_
    apply zpow_le_zpow_right₀ (by norm_num)
    have := f32Exp_le x k hk hx0 hx
    omega


theorem f32Exp_eq (x : ℚ) (k : Int) (hk : -126 ≤ k) (h1 : (2 : ℚ) ^ k ≤ |x|)
    (h2 : |x| < (2 : ℚ) ^ (k + 1)) : f32Exp x = k := by
  have hpos : 0 < |x| := lt_of_lt_of_le (zpow_pos (by norm_num) _) h1
  have hlt : Int.log 2 |x| < k + 1 :=
    (Int.lt_zpow_iff_log_lt (R := ℚ) (b := 2) (by norm_num) hpos (x := k + 1)).mp
      (by exact_mod_cast h2)
  have hle : k ≤ Int.log 2 |x| :=
    (Int.zpow_le_iff_le_log (R := ℚ) (b := 2) (by norm_num) hpos (x := k)).mp
      (by exact_mod_cast h1)
  unfold f32Exp
  omega

/-- A value `n * 2^(k-23)` with integer `n` and binary exponent `k` is a `float`. -/
theorem f32Round_of_scaled_int (x : ℚ) (k n : Int) (hk : -126 ≤ k)
    (h1 : (2 : ℚ) ^ k ≤ |x|) (h2 : |x| < (2 : ℚ) ^ (k + 1))
    (hn : x = (n : ℚ) * (2 : ℚ) ^ (k - 23)) : f32Round x = x := by
  have hu : (2 : ℚ) ^ (k - 23) ≠ 0 := ne_of_gt (zpow_pos (by norm_num) _)
  have hq : x / (2 : ℚ) ^ (k - 23) = (n : ℚ) := by
    rw [hn]; field_simp
  unfold f32Round
  rw [f32Exp_eq x k hk h1 h2, hq, roundHalfEven_intCast, ← hn]

/-- The conversion of an integer below 2^24 to `float` is exact. -/
theorem f32Round_natCast (n : Nat) (h : n < 16777216) : f32Round (n : ℚ) = n := by
  rcases Nat.eq_zero_or_pos n with h0 | hpos
  · subst h0; simpa using f32Round_zero
  · have hlo : 2 ^ Nat.log 2 n ≤ n := Nat.pow_log_le_self 2 (by omega)
    have hhi : n < 2 ^ (Nat.log 2 n + 1) := Nat.lt_pow_succ_log_self (by decide) n
    have hk : Nat.log 2 n < 24 := by
      have : n < 2 ^ 24 := by simpa using h
      exact Nat.log_lt_of_lt_pow (by omega) this
    obtain ⟨m, hm⟩ : ∃ m : Nat, Nat.log 2 n + m = 23 := ⟨23 - Nat.log 2 n, by omega⟩
    have habs : |(n : ℚ)| = n := abs_of_nonneg (by positivity)
    refine f32Round_of_scaled_int (n : ℚ) (Nat.log 2 n) ((n * 2 ^ m : Nat) : Int) (by omega)
      ?_ ?_ ?_
    · rw [habs, zpow_natCast]; exact_mod_cast hlo
    · rw [habs]
      have : ((Nat.log 2 n : Int) + 1) = ((Nat.log 2 n + 1 : Nat) : Int) := by push_cast; ring
      rw [this, zpow_natCast]; exact_mod_cast hhi
    · have he : ((Nat.log 2 n : Int) - 23) = -(m : Int) := by omega
      rw [he, zpow_neg, zpow_natCast]
      push_cast
      field_simp

theorem roundHalfEven_eq_of_near (x : ℚ) (n : Int) (h1 : (n : ℚ) ≤ x) (h2 : x - n < 1 / 2) :
    roundHalfEven x = n := by
  have hf : ⌊x⌋ = n := Int.floor_eq_iff.mpr ⟨h1, by linarith⟩
  unfold roundHalfEven
  rw [hf, if_pos h2]

theorem raw_quotient_bounds (raw : Nat) (h : raw ≤ 65535) :
    |f32Round (f32Round (raw : ℚ) / 65535)| ≤ 1 + 1 / 16777216 ∧
    |f32Round (f32Round (raw : ℚ) / 65535) - (raw : ℚ) / 65535| ≤ 1 / 16777216 := by
  rw [f32Round_natCast raw (by omega)]
  have hq0 : (0 : ℚ) ≤ (raw : ℚ) / 65535 := by positivity
  have hq1 : (raw : ℚ) / 65535 ≤ 1 := by
    rw [div_le_one (by norm_num)]
    exact_mod_cast h
  have herr := f32Round_error_le ((raw : ℚ) / 65535) 0 (by decide)
    (by rw [abs_of_nonneg hq0]; norm_num; linarith)
  have h24 : (2 : ℚ) ^ ((0 : Int) - 24) = 1 / 16777216 := by norm_num [zpow_neg]
  rw [h24] at herr
  have hb := abs_le.mp herr
  refine ⟨?_, herr⟩
  rw [abs_le]
  constructor <;> linarith [hb.1, hb.2]

/-- The `float` temperature is within 2^-15 of the exact value of the transfer function. -/
theorem decodeTemperature_error (rawT : Nat) (h : rawT ≤ 65535) :
    |decodeTemperature f32Round rawT - (-45 + 175 * ((rawT : ℚ) / 65535))| ≤ 1 / 32768 := by
  obtain ⟨hq, hqe⟩ := raw_quotient_bounds rawT h
  have hqa := abs_le.mp hq
  have hqb := abs_le.mp hqe
  have h17 : (2 : ℚ) ^ ((7 : Int) - 24) = 1 / 131072 := by norm_num [zpow_neg]
  have hp := f32Round_error_le (175 * f32Round (f32Round (rawT : ℚ) / 65535)) 7 (by decide)
    (by rw [abs_lt]; norm_num; constructor <;> linarith [hqa.1, hqa.2])
  rw [h17] at hp
  have hpb := abs_le.mp hp
  have hs := f32Round_error_le
    (-45 + f32Round (175 * f32Round (f32Round (rawT : ℚ) / 65535))) 7 (by decide)
    (by rw [abs_lt]; norm_num; constructor <;> linarith [hqa.1, hqa.2, hpb.1, hpb.2])
  rw [h17] at hs
  have hsb := abs_le.mp hs
  unfold decodeTemperature
  rw [abs_le]
  constructor <;> linarith [hqb.1, hqb.2, hpb.1, hpb.2, hsb.1, hsb.2]

/-- The `float` humidity is within 2^-16 of the exact value of the transfer function. -/
theorem decodeHumidity_error (rawRH : Nat) (h : rawRH ≤ 65535) :
    |decodeHumidity f32Round rawRH - 100 * ((rawRH : ℚ) / 65535)| ≤ 1 / 65536 := by
  obtain ⟨hq, hqe⟩ := raw_quotient_bounds rawRH h
  have hqa := abs_le.mp hq
  have hqb := abs_le.mp hqe
  have h18 : (2 : ℚ) ^ ((6 : Int) - 24) = 1 / 262144 := by norm_num [zpow_neg]
  have hp := f32Round_error_le (100 * f32Round (f32Round (rawRH : ℚ) / 65535)) 6 (by decide)
    (by rw [abs_lt]; norm_num; constructor <;> linarith [hqa.1, hqa.2])
  rw [h18] at hp
  have hpb := abs_le.mp hp
  unfold decodeHumidity
  rw [abs_le]
  constructor <;> linarith [hqb.1, hqb.2, hpb.1, hpb.2]

theorem f32Round_eq_of_round (x : ℚ) (k n : Int) (hk : -126 ≤ k)
    (h1 : (2 : ℚ) ^ k ≤ |x|) (h2 : |x| < (2 : ℚ) ^ (k + 1))
    (hn : roundHalfEven (x / (2 : ℚ) ^ (k - 23)) = n) :
    f32Round x = (n : ℚ) * (2 : ℚ) ^ (k - 23) := by
  unfold f32Round
  rw [f32Exp_eq x k hk h1 h2, hn]

theorem decodeTemperature_f32_zero : decodeTemperature f32Round 0 = -45 := by
  have h45 : f32Round (-45 : ℚ) = -45 :=
    f32Round_of_scaled_int (-45) 5 (-11796480) (by decide) (by norm_num [abs_of_neg])
      (by norm_num [abs_of_neg]) (by norm_num [zpow_neg])
  unfold decodeTemperature
  simp only [Nat.cast_zero, f32Round_zero, zero_div, mul_zero, add_zero]
  exact h45

theorem f32Round_ofNat_small (n : Nat) (h : n < 16777216) (x : ℚ) (hx : x = (n : ℚ)) :
    f32Round x = x := by
  rw [hx]
  exact f32Round_natCast n h

theorem decodeTemperature_f32_full : decodeTemperature f32Round 65535 = 130 := by
  unfold decodeTemperature
  have h0 : f32Round ((65535 : Nat) : ℚ) = 65535 := by
    simpa using f32Round_natCast 65535 (by norm_num)
  have h1 : f32Round (1 : ℚ) = 1 := f32Round_ofNat_small 1 (by norm_num) 1 (by norm_num)
  have h175 : f32Round (175 : ℚ) = 175 :=
    f32Round_ofNat_small 175 (by norm_num) 175 (by norm_num)
  have h130 : f32Round (130 : ℚ) = 130 :=
    f32Round_ofNat_small 130 (by norm_num) 130 (by norm_num)
  rw [h0]
  norm_num
  rw [h1]
  norm_num
  rw [h175]
  norm_num
  exact h130

theorem decodeTemperature_f32_mid : decodeTemperature f32Round 32768 = 5570735 / 131072 := by
  unfold decodeTemperature
  have h0 : f32Round ((32768 : Nat) : ℚ) = 32768 := by
    simpa using f32Round_natCast 32768 (by norm_num)
  have hq : f32Round ((32768 : ℚ) / 65535) = 65537 / 131072 := by
    have hr : roundHalfEven ((32768 : ℚ) / 65535 / (2 : ℚ) ^ ((-1 : Int) - 23)) = 8388736 :=
      roundHalfEven_eq_of_near _ 8388736 (by norm_num [zpow_neg]) (by norm_num [zpow_neg])
    have := f32Round_eq_of_round ((32768 : ℚ) / 65535) (-1) 8388736 (by decide)
      (by norm_num [zpow_neg, abs_of_pos]) (by norm_num [abs_of_pos]) hr
    rw [this]
    norm_num [zpow_neg]
  have hp : f32Round ((11468975 : ℚ) / 131072) = 11468975 / 131072 :=
    f32Round_of_scaled_int _ 6 11468975 (by decide) (by norm_num [abs_of_pos])
      (by norm_num [abs_of_pos]) (by norm_num [zpow_neg])
  have hs : f32Round ((5570735 : ℚ) / 131072) = 5570735 / 131072 :=
    f32Round_of_scaled_int _ 5 11141470 (by decide) (by norm_num [abs_of_pos])
      (by norm_num [abs_of_pos]) (by norm_num [zpow_neg])
  rw [h0, hq]
  have e1 : (175 : ℚ) * (65537 / 131072) = 11468975 / 131072 := by norm_num
  rw [e1, hp]
  have e2 : (-45 : ℚ) + 11468975 / 131072 = 5570735 / 131072 := by norm_num
  rw [e2, hs]

theorem decodeHumidity_f32_zero : decodeHumidity f32Round 0 = 0 := by
  unfold decodeHumidity
  simp only [Nat.cast_zero, f32Round_zero, zero_div, mul_zero]

theorem decodeHumidity_f32_full : decodeHumidity f32Round 65535 = 100 := by
  unfold decodeHumidity
  have h0 : f32Round ((65535 : Nat) : ℚ) = 65535 := by
    simpa using f32Round_natCast 65535 (by norm_num)
  have h1 : f32Round (1 : ℚ) = 1 := f32Round_ofNat_small 1 (by norm_num) 1 (by norm_num)
  have h100 : f32Round (100 : ℚ) = 100 :=
    f32Round_ofNat_small 100 (by norm_num) 100 (by norm_num)
  rw [h0]
  norm_num
  rw [h1]
  norm_num
  exact h100

theorem formatFixed2_of_nonneg (x : ℚ) (h : Nat) (hx : 0 ≤ x)
    (hr : roundHalfEven (x * 100) = (h : Int)) :
    formatFixed2 x =
      decimalDigits (h / 100) ++ ['.', Nat.digitChar (h / 10 % 10), Nat.digitChar (h % 10)] := by
  unfold formatFixed2
  rw [abs_of_nonneg hx, hr, if_neg (not_lt.mpr hx)]
  simp

theorem formatFixed2_of_neg (x : ℚ) (h : Nat) (hx : x < 0)
    (hr : roundHalfEven (-x * 100) = (h : Int)) :
    formatFixed2 x =
      '-' :: (decimalDigits (h / 100) ++
        ['.', Nat.digitChar (h / 10 % 10), Nat.digitChar (h % 10)]) := by
  unfold formatFixed2
  rw [abs_of_neg hx, hr, if_pos hx]
  simp

theorem formatFixed2_examples :
    formatFixed2 (-45) = ['-', '4', '5', '.', '0', '0'] ∧
    formatFixed2 130 = ['1', '3', '0', '.', '0', '0'] ∧
    formatFixed2 (5570735 / 131072) = ['4', '2', '.', '5', '0'] ∧
    formatFixed2 (-45 + 175 * ((32768 : ℚ) / 65535)) = ['4', '2', '.', '5', '0'] ∧
    formatFixed2 0 = ['0', '.', '0', '0'] ∧
    formatFixed2 100 = ['1', '0', '0', '.', '0', '0'] := by
  refine ⟨?_, ?_, ?_, ?_, ?_, ?_⟩
  · rw [formatFixed2_of_neg (-45) 4500 (by norm_num)
      (roundHalfEven_eq_of_near _ 4500 (by norm_num) (by norm_num))]
    decide
  · rw [formatFixed2_of_nonneg 130 13000 (by norm_num)
      (roundHalfEven_eq_of_near _ 13000 (by norm_num) (by norm_num))]
    decide
  · rw [formatFixed2_of_nonneg _ 4250 (by norm_num)
      (roundHalfEven_eq_of_near _ 4250 (by norm_num) (by norm_num))]
    decide
  · rw [formatFixed2_of_nonneg _ 4250 (by norm_num)
      (roundHalfEven_eq_of_near _ 4250 (by norm_num) (by norm_num))]
    decide
  · rw [formatFixed2_of_nonneg 0 0 (by norm_num)
      (roundHalfEven_eq_of_near _ 0 (by norm_num) (by norm_num))]
    decide
  · rw [formatFixed2_of_nonneg 100 10000 (by norm_num)
      (roundHalfEven_eq_of_near _ 10000 (by norm_num) (by norm_num))]
    decide

/-- C4: for every pair of 16-bit raw codes, the decode of `shtc3_readRegister` read in
exact rational arithmetic is `-45 + 175 * (rawTemp / 65535)` and `100 * (rawHumidity /
65535)`, and the `float` results of the code differ from these values by at most 2^-15
and 2^-16; raw temperature 0 gives -45 and prints `-45.00`, 65535 gives 130 and prints
`130.00`, 32768 prints `42.50`; raw humidity 0 gives 0 and prints `0.00`, 65535 gives 100
and prints `100.00`, in exact and in `float` arithmetic alike. -/
theorem shtc3_decode_formula (rawT rawRH : Nat) (hT : rawT ≤ 65535) (hH : rawRH ≤ 65535) :
    decodeTemperature id rawT = -45 + 175 * ((rawT : ℚ) / 65535) ∧
    decodeHumidity id rawRH = 100 * ((rawRH : ℚ) / 65535) ∧
    |decodeTemperature f32Round rawT - (-45 + 175 * ((rawT : ℚ) / 65535))| ≤ 1 / 32768 ∧
    |decodeHumidity f32Round rawRH - 100 * ((rawRH : ℚ) / 65535)| ≤ 1 / 65536 ∧
    (decodeTemperature id 0 = -45 ∧ decodeTemperature f32Round 0 = -45 ∧
      formatFixed2 (-45) = ['-', '4', '5', '.', '0', '0']) ∧
    (decodeTemperature id 65535 = 130 ∧ decodeTemperature f32Round 65535 = 130 ∧
      formatFixed2 130 = ['1', '3', '0', '.', '0', '0']) ∧
    (formatFixed2 (decodeTemperature id 32768) = ['4', '2', '.', '5', '0'] ∧
      formatFixed2 (decodeTemperature f32Round 32768) = ['4', '2', '.', '5', '0']) ∧
    (decodeHumidity id 0 = 0 ∧ decodeHumidity f32Round 0 = 0 ∧
      formatFixed2 0 = ['0', '.', '0', '0']) ∧
    (decodeHumidity id 65535 = 100 ∧ decodeHumidity f32Round 65535 = 100 ∧
      formatFixed2 100 = ['1', '0', '0', '.', '0', '0']) := by
  obtain ⟨f45, f130, fmid, fmidx, f0, f100⟩ := formatFixed2_examples
  refine ⟨rfl, rfl, decodeTemperature_error rawT hT, decodeHumidity_error rawRH hH,
    ⟨?_, decodeTemperature_f32_zero, f45⟩, ⟨?_, decodeTemperature_f32_full, f130⟩,
    ⟨?_, ?_⟩, ⟨?_, decodeHumidity_f32_zero, f0⟩, ⟨?_, decodeHumidity_f32_full, f100⟩⟩
  · simp [decodeTemperature]
  · norm_num [decodeTemperature]
  · have h : decodeTemperature id 32768 = -45 + 175 * ((32768 : ℚ) / 65535) := by
      simp [decodeTemperature]
    rw [h]
    exact fmidx
  · rw [decodeTemperature_f32_mid]
    exact fmid
  · simp [decodeHumidity]
  · norm_num [decodeHumidity]

/-- Witness for C4 at the raw codes 32768 and 65535. -/
theorem shtc3_decode_formula_witness :
    |decodeTemperature f32Round 32768 - (-45 + 175 * (((32768 : Nat) : ℚ) / 65535))| ≤
      1 / 32768 ∧
    |decodeHumidity f32Round 65535 - 100 * (((65535 : Nat) : ℚ) / 65535)| ≤ 1 / 65536 :=
  ⟨(shtc3_decode_formula 32768 65535 (by decide) (by decide)).2.2.1,
    (shtc3_decode_formula 32768 65535 (by decide) (by decide)).2.2.2.1⟩

end SensorFirmware
